import Mathlib

/-!
# Verification of the video capture/scoring/aggregation pipeline

Shallow embedding of `src/app2/video/video_run.py` and
`src/app2/video/video_metrics.py` from the repository
`cjin2019/videonetworkapp`, together with theorems settling the frozen
claims about the pipeline.

Modelling conventions:
* Wall-clock times (`datetime.now()` values and their `total_seconds`
  differences) are rationals (`ℚ`), in seconds.
* Raw pixel buffers (`np.ndarray`) are opaque values, modelled as `ℕ`.
* A `multiprocessing.Queue` is a FIFO channel; the full sequence of items
  pushed on a channel during a run is a Lean list, in push order.
* Python exceptions that the code catches (`ValueError`) are modelled with
  `Option`: `none` means the call raised `ValueError`.
* The scoring collaborator `get_no_ref_score` and the enum `MetricType`
  live in `app2/video/metrics/image_score.py`, which is not part of the
  sources; the scorer is a parameter, `MetricType` is modelled from the
  spec (see below).
-/

/-- Time stamps and durations, in seconds. -/
abbrev Time : Type := ℚ

/-- Opaque raw pixel buffer (`np.ndarray` contents). -/
abbrev Image : Type := ℕ

/-- Modelled from the spec: the module `app2/video/metrics/image_score.py`
(defining the enum `MetricType`) is not among the sources.  The spec says
MetricKind is "a fixed, enumerable, finite set of named quality metrics
(e.g. sharpness, noise, contrast-style no-reference scores)", closed at
configuration time.  We model it as a three-element enumeration. -/
inductive MetricType : Type
| sharpness : MetricType
| noise : MetricType
| contrast : MetricType
deriving DecidableEq

/-- Iteration order of `for metric_type in MetricType` (enum member order). -/
def MetricType.all : List MetricType :=
[MetricType.sharpness, MetricType.noise, MetricType.contrast]

/-- `video_metrics.py`: `@dataclass class VideoMetrics` with fields
`time: datetime` and `metrics: Dict[MetricType, float]`.  The dict is an
association list in insertion order (Python dicts preserve it). -/
structure VideoMetrics : Type where
  time : Time
  metrics : List (MetricType × ℚ)
deriving DecidableEq

/-- `video_run.py` line 18: `FINISH = 1`, the end-of-stream sentinel. -/
def FINISH : ℤ := 1

/-- An item pushed on the capture→scoring queue (`data_queue`): either a
`(image_start_time, raw_data)` tuple or the integer sentinel `FINISH`.
`compute_metrics` distinguishes them by `type(res) == int and res == FINISH`,
i.e. by tag, which the sum type models. -/
inductive ChanAItem : Type
| frame (t : Time) (data : Image) : ChanAItem
| finish : ChanAItem
deriving DecidableEq

/-- An item pushed on the scoring→graph queue (`result_queue`): a
`VideoMetrics` record or the sentinel `FINISH`. -/
inductive ChanBItem : Type
| record (r : VideoMetrics) : ChanBItem
| finish : ChanBItem
deriving DecidableEq

/-- A scorer: the external collaborator `get_no_ref_score(image_data,
metric_type)`.  `none` models the call raising `ValueError`. -/
abbrev Scorer : Type := Image → MetricType → Option ℚ

/-- One evaluation pass of the dict comprehension at `video_run.py`
line 85 over a list of metric kinds, building the key-value pairs in
iteration order; a `ValueError` raised by the scorer (result `none`)
propagates out of the whole comprehension. -/
def dictComp (score : Scorer) (data : Image) : List MetricType → Option (List (MetricType × ℚ))
| [] => some []
| mt :: rest =>
  match score data mt, dictComp score data rest with
  | some s, some ms => some ((mt, s) :: ms)
  | _, _ => none

/-- The dict comprehension at `video_run.py` line 85:
`{metric_type: get_no_ref_score(image_data, metric_type) for metric_type in MetricType}`,
iterating over the members of `MetricType`. -/
def metricsDict (score : Scorer) (data : Image) : Option (List (MetricType × ℚ)) :=
dictComp score data MetricType.all

/-- Construction of one `VideoMetrics` record from a received frame
(`video_run.py` lines 82-86): `VideoMetrics(time=image_capture_time,
metrics={...})`, or `none` when the scorer raises `ValueError`. -/
def computeRecord (score : Scorer) (t : Time) (data : Image) : Option VideoMetrics :=
(metricsDict score data).map (fun ms => VideoMetrics.mk t ms)

/-- The consumer loop of `compute_metrics` (`video_run.py` lines 77-91),
as a function from the sequence of items received on `data_queue` to the
sequence of items it pushes on `result_queue`:
* sentinel received → `break`, then `result_queue.put(FINISH)`;
* frame received → build the record; on success push it and continue; on
  `ValueError` print and `break`, then `result_queue.put(FINISH)`;
* input exhausted with no sentinel → the blocking `get` never returns:
  the stage is still blocked and has pushed nothing further. -/
def computeLoop (score : Scorer) : List ChanAItem → List ChanBItem
| [] => []
| ChanAItem.finish :: _ => [ChanBItem.finish]
| ChanAItem.frame t data :: rest =>
  match computeRecord score t data with
  | some r => ChanBItem.record r :: computeLoop score rest
  | none => [ChanBItem.finish]

/-- `get_zoom_window_id` scans the window list; a window matches when its
owner name is `zoom.us` and its name (defaulting to the empty string) is
`Zoom Meeting`. -/
structure WindowInfo : Type where
  ownerName : String
  windowName : Option String
  windowNumber : ℤ
deriving DecidableEq

/-- Whether `get_zoom_window_id`'s condition at `video_run.py` line 27
holds for a window. -/
def isZoomMeeting (w : WindowInfo) : Bool :=
w.ownerName == "zoom.us" && (w.windowName.getD "") == "Zoom Meeting"

/-- `get_zoom_window_id` (`video_run.py` lines 21-29): return the window
number of the first matching window, else `-1`.  The ambient window list
(what `CGWindowListCopyWindowInfo` reports) is the argument.  Note it
returns `-1` on no match; it raises nothing. -/
def get_zoom_window_id (windows : List WindowInfo) : ℤ :=
match windows.find? isZoomMeeting with
| some w => w.windowNumber
| none => -1

/-- `time_between_frame: float = 1/frame_rate` (`video_run.py` line 59). -/
def time_between_frame (frame_rate : ℚ) : ℚ := 1 / frame_rate

/-- The pacing step at `video_run.py` lines 68-70: with
`diff = (image_finish_time - image_start_time).total_seconds()`, sleep
`time_between_frame - diff` seconds when `diff < time_between_frame`,
else sleep not at all (fall through to the next loop iteration). -/
def sleepDuration (frame_rate diff : ℚ) : ℚ :=
if diff < time_between_frame frame_rate then time_between_frame frame_rate - diff else 0

/-- The environment of one iteration of the capture loop: the values
`datetime.now()` returns at the loop guard (line 62), at
`image_start_time` (line 63) and at `image_finish_time` (line 66), and
the raw buffer `capture_image` returns at line 64 that tick. -/
structure TickEnv : Type where
  guard : Time
  tstart : Time
  tfinish : Time
  img : Image

/-- The capture loop of `capture_images` (`video_run.py` lines 62-70),
pushing one `(image_start_time, raw_data)` pair per iteration.  `t0` is
`capture_start_time`, `env i` the timing environment of iteration `i`
(counted from the current one), and `fuel` bounds the number of guard
evaluations modelled; a run whose loop exits needs only finitely many.
The guard is `(now - capture_start_time).total_seconds() <= 5`. -/
def captureLoop (t0 : Time) (env : ℕ → TickEnv) : ℕ → ℕ → List ChanAItem
| 0, _ => []
| Nat.succ fuel, i =>
  if (env i).guard - t0 ≤ 5 then
    ChanAItem.frame (env i).tstart (env i).img :: captureLoop t0 env fuel (i + 1)
  else []

/-- `capture_images` (`video_run.py` lines 50-73) as the sequence of items
it pushes on `data_queue`: the loop's frames followed by the single
`FINISH` pushed at line 71 after the loop exits.  The append of the
sentinel is meaningful only for runs whose loop exits within `fuel`
iterations; theorems carry that hypothesis. -/
def capture_images (t0 : Time) (env : ℕ → TickEnv) (fuel : ℕ) : List ChanAItem :=
captureLoop t0 env fuel 0 ++ [ChanAItem.finish]

/-- Accumulator of `graph_metrics` (`video_run.py` lines 96-97):
`times: List[datetime]` and `image_scores: Dict[MetricType, List[float]]`
as a `defaultdict(list)`, an association list in insertion order. -/
structure GraphAcc : Type where
  times : List Time
  image_scores : List (MetricType × List ℚ)
deriving DecidableEq

/-- The empty accumulator at `graph_metrics` entry. -/
def GraphAcc.empty : GraphAcc := GraphAcc.mk [] []

/-- `defaultdict(list)` update `image_scores[k].append(v)`: append to the
existing entry, or create the key with `[v]` on first touch. -/
def ddAppend (m : List (MetricType × List ℚ)) (k : MetricType) (v : ℚ) :
    List (MetricType × List ℚ) :=
if (m.lookup k).isSome then
  m.map (fun p => if p.1 = k then (p.1, p.2 ++ [v]) else p)
else m ++ [(k, [v])]

/-- Python dict read `metric_record.metrics[metric_type]` at line 107.
Records produced by `compute_metrics` contain every `MetricType` key
(proved in `metricsDict_keys`), so the `KeyError` branch is unreachable
for the pipeline's own records; the default `0` is never consulted there. -/
def dictGet (m : List (MetricType × ℚ)) (k : MetricType) : ℚ :=
(m.lookup k).getD 0

/-- The body of `graph_metrics`' loop for one received record
(`video_run.py` lines 105-107): append the record's time to `times`, then
for each `metric_type in MetricType` append its score to
`image_scores[metric_type]`. -/
def pushRecord (acc : GraphAcc) (r : VideoMetrics) : GraphAcc :=
GraphAcc.mk (acc.times ++ [r.time])
  (MetricType.all.foldl (fun m mt => ddAppend m mt (dictGet r.metrics mt)) acc.image_scores)

/-- One pull from `result_queue` in `graph_metrics`: either an item is
returned, or the pull raises `ValueError` (caught at line 108). -/
inductive PullB : Type
| item (i : ChanBItem) : PullB
| raiseVE : PullB
deriving DecidableEq

/-- The consumer loop of `graph_metrics` (`video_run.py` lines 100-110)
over the sequence of pull outcomes.  `some acc` means the loop exited
(sentinel seen at line 103-104, or `ValueError` caught at line 108-110)
with accumulator `acc`, after which the function renders and saves the
chart from `acc` (lines 112-134).  `none` means the pulls were exhausted
with no exit: the blocking `get` never returns and nothing is rendered. -/
def graphLoop : List PullB → GraphAcc → Option GraphAcc
| [], _ => none
| PullB.raiseVE :: _, acc => some acc
| PullB.item ChanBItem.finish :: _, acc => some acc
| PullB.item (ChanBItem.record r) :: rest, acc => graphLoop rest (pushRecord acc r)

/-- `graph_metrics` (`video_run.py` lines 94-135) as a function from the
pull outcomes to the accumulator handed to the rendering code, starting
from empty `times` and `image_scores`. -/
def graph_metrics (pulls : List PullB) : Option GraphAcc :=
graphLoop pulls GraphAcc.empty

/-- The three stages started by `run_video_processes`. -/
inductive Stage : Type
| capture : Stage
| analysis : Stage
| graph : Stage
deriving DecidableEq

/-- The two queues constructed by `run_video_processes`. -/
inductive QueueId : Type
| packet_queue : QueueId
| metrics_queue : QueueId
deriving DecidableEq

/-- The lifecycle actions `run_video_processes` performs, in program
order: construct a queue, `Process(...).start()` a stage with its queue
arguments in positional order, or `join()` a stage. -/
inductive OrchAction : Type
| create (q : QueueId) : OrchAction
| start (s : Stage) (queues : List QueueId) : OrchAction
| join (s : Stage) : OrchAction
deriving DecidableEq

/-- `run_video_processes` (`video_run.py` lines 137-151) as its sequence
of lifecycle actions: construct `packet_queue` and `metrics_queue`
(lines 138-139), start `capture_images(30, packet_queue)`,
`compute_metrics(packet_queue, metrics_queue)` and
`graph_metrics(graph_dir, metrics_queue)` (lines 141-147), then join all
three (lines 149-151); the function returns after the last join. -/
def run_video_processes : List OrchAction :=
[OrchAction.create QueueId.packet_queue,
 OrchAction.create QueueId.metrics_queue,
 OrchAction.start Stage.capture [QueueId.packet_queue],
 OrchAction.start Stage.analysis [QueueId.packet_queue, QueueId.metrics_queue],
 OrchAction.start Stage.graph [QueueId.metrics_queue],
 OrchAction.join Stage.capture,
 OrchAction.join Stage.analysis,
 OrchAction.join Stage.graph]

/-- Whether an orchestrator action is a `start`. -/
def OrchAction.isStart : OrchAction → Bool
| OrchAction.start _ _ => true
| _ => false

/-- Whether an orchestrator action is a `join`. -/
def OrchAction.isJoin : OrchAction → Bool
| OrchAction.join _ => true
| _ => false

/-- The full channel-A content of a run whose capture stage emitted the
given timestamped frames: the frames in emission order, then the
sentinel. -/
def chanAOf (fs : List (Time × Image)) : List ChanAItem :=
fs.map (fun p => ChanAItem.frame p.1 p.2) ++ [ChanAItem.finish]

/-- Global state of the three-stage pipeline during a run: the items the
capture stage has yet to push (its frames then the sentinel), the current
contents of the two FIFO queues, whether `compute_metrics` /
`graph_metrics` have exited their loops, and `graph_metrics`'
accumulator.  Used to show the run's outcome is schedule-independent. -/
structure PipeState : Type where
  toPush : List ChanAItem
  chanA : List ChanAItem
  analysisDone : Bool
  chanB : List ChanBItem
  graphDone : Bool
  acc : GraphAcc
deriving DecidableEq

/-- Initial pipeline state for a run in which the capture stage will emit
the given timestamped frames: nothing pushed yet, both queues empty, both
consumer loops running, accumulator empty. -/
def initState (frames : List (Time × Image)) : PipeState :=
PipeState.mk (chanAOf frames) [] false [] false GraphAcc.empty

/-- One scheduled step of a stage, `none` when the stage cannot act
(nothing left to push, or its loop exited, or its blocking `get` has no
item to return yet):
* capture moves its next item to the tail of `data_queue`;
* `compute_metrics` pops the head of `data_queue` and reacts as its loop
  body does (push the record; or push `FINISH` and exit on sentinel or
  `ValueError`);
* `graph_metrics` pops the head of `result_queue` and reacts as its loop
  body does (accumulate, or exit on sentinel). -/
def stepStage (score : Scorer) (s : PipeState) : Stage → Option PipeState
| Stage.capture =>
  match s.toPush with
  | [] => none
  | a :: rest => some (PipeState.mk rest (s.chanA ++ [a]) s.analysisDone s.chanB s.graphDone s.acc)
| Stage.analysis =>
  if s.analysisDone then none else
  match s.chanA with
  | [] => none
  | ChanAItem.finish :: rest =>
    some (PipeState.mk s.toPush rest true (s.chanB ++ [ChanBItem.finish]) s.graphDone s.acc)
  | ChanAItem.frame t data :: rest =>
    match computeRecord score t data with
    | some r => some (PipeState.mk s.toPush rest false (s.chanB ++ [ChanBItem.record r]) s.graphDone s.acc)
    | none => some (PipeState.mk s.toPush rest true (s.chanB ++ [ChanBItem.finish]) s.graphDone s.acc)
| Stage.graph =>
  if s.graphDone then none else
  match s.chanB with
  | [] => none
  | ChanBItem.finish :: rest => some (PipeState.mk s.toPush s.chanA s.analysisDone rest true s.acc)
  | ChanBItem.record r :: rest =>
    some (PipeState.mk s.toPush s.chanA s.analysisDone rest s.graphDone (pushRecord s.acc r))

/-- Run the pipeline under a schedule: at each slot the scheduled stage
steps if it can, otherwise (blocked) the slot is a no-op. -/
def runSched (score : Scorer) : List Stage → PipeState → PipeState
| [], s => s
| st :: sched, s => runSched score sched ((stepStage score s st).getD s)

/-- A pipeline state in which the whole run has quiesced: capture has
pushed everything including its sentinel, and both consumer loops have
exited. -/
def PipeState.terminal (s : PipeState) : Prop :=
s.toPush = [] ∧ s.analysisDone = true ∧ s.graphDone = true

instance (s : PipeState) : Decidable s.terminal := by
  unfold PipeState.terminal
  infer_instance

/-- The eventual `graph_metrics` accumulator determined by a pipeline
state: what the aggregation stage will have accumulated once everything
still in flight has been processed.  Invariant under scheduling. -/
def outcome (score : Scorer) (s : PipeState) : Option GraphAcc :=
if s.graphDone then some s.acc
else graphLoop ((s.chanB ++ (if s.analysisDone then [] else computeLoop score (s.chanA ++ s.toPush))).map PullB.item) s.acc

/-- A stub capture environment for concrete runs: at tick `j` the guard,
start and finish clocks all read `j` seconds and the captured buffer is
`j`.  Its capture loop exits at tick 6 (guard 6 > 5). -/
def stubEnv : ℕ → TickEnv := fun j => TickEnv.mk (j : ℚ) (j : ℚ) (j : ℚ) j

/-- Five concrete frames for the dropped-frame scenario, captured at
times 0..4 with buffers 0..4. -/
def c2Frames : List (Time × Image) :=
[(0, 0), (1, 1), (2, 2), (3, 3), (4, 4)]

/-- A concrete scorer that raises `ValueError` exactly on the buffer of
frame #3 of `c2Frames` (buffer `2`) and otherwise returns the buffer
value as the score for every metric. -/
def c2Scorer : Scorer := fun img _ => if img = 2 then none else some (img : ℚ)

/-- A concrete everywhere-defined scorer for witness runs. -/
def okScorer : Scorer := fun _ mt =>
some (match mt with
      | MetricType.sharpness => 1
      | MetricType.noise => 2
      | MetricType.contrast => 3)

/-! ## Characterization of the capture loop -/

/-- A terminating capture run: the guard holds for the first `N` ticks
and fails at tick `N`; with enough fuel, the loop pushes exactly the `N`
frames of those ticks, in tick order. -/
lemma captureLoop_eq (t0 : Time) (env : ℕ → TickEnv) :
    ∀ (N i fuel : ℕ),
    (∀ j, j < N → (env (i + j)).guard - t0 ≤ 5) →
    ¬ (env (i + N)).guard - t0 ≤ 5 →
    N < fuel →
    captureLoop t0 env fuel i =
      (List.range N).map (fun j => ChanAItem.frame (env (i + j)).tstart (env (i + j)).img) := by
  intro N
  induction N with
  | zero =>
    intro i fuel hrun hexit hfuel
    match fuel, hfuel with
    | Nat.succ f, _ =>
      simp only [captureLoop, List.range_zero, List.map_nil]
      rw [if_neg]
      simpa using hexit
  | succ N ih =>
    intro i fuel hrun hexit hfuel
    match fuel, hfuel with
    | Nat.succ f, hfuel =>
      simp only [captureLoop]
      rw [if_pos (by simpa using hrun 0 (Nat.succ_pos N))]
      rw [ih (i + 1) f (fun j hj => by
            have := hrun (j + 1) (by omega)
            simpa [Nat.add_assoc, Nat.add_comm 1 j] using this)
          (by
            have h := hexit
            have : i + 1 + N = i + (N + 1) := by omega
            rw [this]
            exact h)
          (by omega)]
      rw [List.range_succ_eq_map, List.map_cons, List.map_map]
      simp only [Nat.add_zero]
      congr 1
      apply List.map_congr_left
      intro j hj
      have : i + (j + 1) = i + 1 + j := by omega
      simp [Function.comp, this]

/-- C4: on each tick with elapsed time `diff` and rate `r`, the stage
sleeps exactly `1/r - diff` seconds when `diff < 1/r` and zero seconds
otherwise, and a terminating capture loop pushes exactly one frame per
tick, in tick order — ticks are never skipped or doubled. -/
theorem c4_pacing (r diff : ℚ) (t0 : Time) (env : ℕ → TickEnv) (N fuel : ℕ)
    (hrun : ∀ j, j < N → (env j).guard - t0 ≤ 5)
    (hexit : ¬ (env N).guard - t0 ≤ 5)
    (hfuel : N < fuel) :
    (diff < 1 / r → sleepDuration r diff = 1 / r - diff) ∧
    (¬ diff < 1 / r → sleepDuration r diff = 0) ∧
    captureLoop t0 env fuel 0 =
      (List.range N).map (fun j => ChanAItem.frame (env j).tstart (env j).img) := by
  refine ⟨?_, ?_, ?_⟩
  · intro h
    simp only [sleepDuration, time_between_frame]
    rw [if_pos h]
  · intro h
    simp only [sleepDuration, time_between_frame]
    rw [if_neg h]
  · have h := captureLoop_eq t0 env N 0 fuel (by simpa using hrun) (by simpa using hexit) hfuel
    simpa using h

/-- Witness for `c4_pacing` at rate 30 with a fast tick (`diff = 1/60`)
and the stub environment, whose loop exits at tick 6. -/
theorem c4_pacing_witness :
    ((1 / 60 : ℚ) < 1 / 30 → sleepDuration 30 (1 / 60) = 1 / 30 - 1 / 60) ∧
    (¬ (1 / 60 : ℚ) < 1 / 30 → sleepDuration 30 (1 / 60) = 0) ∧
    captureLoop 0 stubEnv 7 0 =
      (List.range 6).map (fun j => ChanAItem.frame (stubEnv j).tstart (stubEnv j).img) :=
  c4_pacing 30 (1 / 60) 0 stubEnv 6 7
    (by intro j hj; interval_cases j <;> norm_num [stubEnv])
    (by norm_num [stubEnv]) (by norm_num)

/-- C9: when the first guard evaluation happens within the 5-second
bound of the loop's start, the capture loop body runs at least once, so
at least one frame is pushed before the sentinel: the first item pushed
on the channel is tick 0's frame, and the sentinel is last. -/
theorem c9_first_frame (t0 : Time) (env : ℕ → TickEnv) (N fuel : ℕ)
    (hrun : ∀ j, j < N → (env j).guard - t0 ≤ 5)
    (hexit : ¬ (env N).guard - t0 ≤ 5)
    (hfuel : N < fuel)
    (hfirst : (env 0).guard - t0 ≤ 5) :
    1 ≤ N ∧
    (capture_images t0 env fuel).head? =
      some (ChanAItem.frame (env 0).tstart (env 0).img) ∧
    (capture_images t0 env fuel).getLast? = some ChanAItem.finish := by
  have hN : 1 ≤ N := by
    rcases Nat.eq_zero_or_pos N with h0 | h1
    · exact absurd (h0 ▸ hfirst) hexit
    · exact h1
  have hcap := captureLoop_eq t0 env N 0 fuel (by simpa using hrun) (by simpa using hexit) hfuel
  refine ⟨hN, ?_, ?_⟩
  · obtain ⟨M, rfl⟩ : ∃ M, N = M + 1 := ⟨N - 1, by omega⟩
    rw [capture_images, hcap, List.range_succ_eq_map]
    simp
  · rw [capture_images]
    exact List.getLast?_append_cons _ _ _

/-- Witness for `c9_first_frame` on the stub environment. -/
theorem c9_first_frame_witness :
    1 ≤ 6 ∧
    (capture_images 0 stubEnv 7).head? = some (ChanAItem.frame (stubEnv 0).tstart (stubEnv 0).img) ∧
    (capture_images 0 stubEnv 7).getLast? = some ChanAItem.finish :=
  c9_first_frame 0 stubEnv 6 7
    (by intro j hj; interval_cases j <;> norm_num [stubEnv])
    (by norm_num [stubEnv]) (by norm_num) (by norm_num [stubEnv])

/-- C3 counterexample: with an empty window list (no matching window at
all), `get_zoom_window_id` returns `-1` — it raises no error — and
`capture_images` enters its loop anyway: items are pushed on Channel A
(the first is a frame, at least two items in total), contradicting the
claim that the run fails before any channel activity. -/
theorem c3_counterexample :
    get_zoom_window_id [] = -1 ∧
    (capture_images 0 stubEnv 7).head? = some (ChanAItem.frame 0 0) ∧
    2 ≤ (capture_images 0 stubEnv 7).length := by
  refine ⟨rfl, ?_, ?_⟩ <;>
    norm_num [capture_images, captureLoop, stubEnv]

/-- C3 as amended: when no window matches, `get_zoom_window_id` returns
the in-band value `-1` and raises nothing; `capture_images` performs no
not-found check, so a terminating run still pushes its frames and the
sentinel exactly as when a window exists. -/
theorem c3_amended (windows : List WindowInfo)
    (hnone : ∀ w ∈ windows, isZoomMeeting w = false)
    (t0 : Time) (env : ℕ → TickEnv) (N fuel : ℕ)
    (hrun : ∀ j, j < N → (env j).guard - t0 ≤ 5)
    (hexit : ¬ (env N).guard - t0 ≤ 5)
    (hfuel : N < fuel) :
    get_zoom_window_id windows = -1 ∧
    capture_images t0 env fuel =
      (List.range N).map (fun j => ChanAItem.frame (env j).tstart (env j).img)
        ++ [ChanAItem.finish] := by
  constructor
  · rw [get_zoom_window_id, List.find?_eq_none.mpr]
    intro w hw
    simp [hnone w hw]
  · rw [capture_images,
      captureLoop_eq t0 env N 0 fuel (by simpa using hrun) (by simpa using hexit) hfuel]
    simp

/-- Witness for `c3_amended`: a window list holding one non-Zoom window,
run in the stub environment. -/
theorem c3_amended_witness :
    get_zoom_window_id [WindowInfo.mk "Safari" (some "Apple") 7] = -1 ∧
    capture_images 0 stubEnv 7 =
      (List.range 6).map (fun j => ChanAItem.frame (stubEnv j).tstart (stubEnv j).img)
        ++ [ChanAItem.finish] :=
  c3_amended [WindowInfo.mk "Safari" (some "Apple") 7] (by decide) 0 stubEnv 6 7
    (by intro j hj; interval_cases j <;> norm_num [stubEnv])
    (by norm_num [stubEnv]) (by norm_num)

/-! ## Sentinel discipline -/

/-- `compute_metrics` never pushes the sentinel twice, whatever arrives
on its input channel. -/
lemma computeLoop_count_le (sc : Scorer) :
    ∀ items : List ChanAItem, (computeLoop sc items).count ChanBItem.finish ≤ 1 := by
  intro items
  induction items with
  | nil => simp [computeLoop]
  | cons a rest ih =>
    cases a with
    | finish => simp [computeLoop]
    | frame t d =>
      cases h : computeRecord sc t d with
      | some r => simpa [computeLoop, h, List.count_cons] using ih
      | none => simp [computeLoop, h]

/-- Whenever the sentinel arrives on `compute_metrics`' input channel,
the stage's output holds the sentinel exactly once and as its last item
— this covers both exit paths of the loop (sentinel received, or
`ValueError` on an earlier frame). -/
lemma computeLoop_finish_mem (sc : Scorer) :
    ∀ items : List ChanAItem, ChanAItem.finish ∈ items →
    (computeLoop sc items).count ChanBItem.finish = 1 ∧
    (computeLoop sc items).getLast? = some ChanBItem.finish := by
  intro items
  induction items with
  | nil =>
    intro h
    cases h
  | cons a rest ih =>
    intro hmem
    cases a with
    | finish => simp [computeLoop]
    | frame t d =>
      have hrest : ChanAItem.finish ∈ rest := by
        rcases List.mem_cons.mp hmem with h | h
        · exact absurd h (by simp)
        · exact h
      cases h : computeRecord sc t d with
      | some r =>
        obtain ⟨hc, hl⟩ := ih hrest
        have hne : computeLoop sc rest ≠ [] := by
          intro he
          rw [he] at hl
          simp at hl
        constructor
        · simp [computeLoop, h, List.count_cons, hc]
        · simp only [computeLoop, h]
          rw [show ChanBItem.record r :: computeLoop sc rest
                = [ChanBItem.record r] ++ computeLoop sc rest from rfl,
              List.getLast?_append_of_ne_nil _ hne, hl]
      | none => simp [computeLoop, h]

/-- C1: for every terminating run, the sentinel is pushed exactly once
and last on each channel: `capture_images` pushes `FINISH` once after its
loop, and `compute_metrics` pushes `FINISH` to the result queue exactly
once and last on every exit path (sentinel received or `ValueError`), and
never more than once in any case. -/
theorem c1_sentinel_once_last (t0 : Time) (env : ℕ → TickEnv) (N fuel : ℕ)
    (hrun : ∀ j, j < N → (env j).guard - t0 ≤ 5)
    (hexit : ¬ (env N).guard - t0 ≤ 5)
    (hfuel : N < fuel) (sc : Scorer) :
    ((capture_images t0 env fuel).count ChanAItem.finish = 1 ∧
     (capture_images t0 env fuel).getLast? = some ChanAItem.finish) ∧
    (∀ items : List ChanAItem, ChanAItem.finish ∈ items →
       (computeLoop sc items).count ChanBItem.finish = 1 ∧
       (computeLoop sc items).getLast? = some ChanBItem.finish) ∧
    (∀ items : List ChanAItem, (computeLoop sc items).count ChanBItem.finish ≤ 1) := by
  refine ⟨⟨?_, ?_⟩, computeLoop_finish_mem sc, computeLoop_count_le sc⟩
  · rw [capture_images,
      captureLoop_eq t0 env N 0 fuel (by simpa using hrun) (by simpa using hexit) hfuel,
      List.count_append]
    simp only [Nat.zero_add]
    have h0 : ((List.range N).map
        (fun j => ChanAItem.frame (env j).tstart (env j).img)).count ChanAItem.finish = 0 := by
      rw [List.count_eq_zero]
      simp
    rw [h0]
    simp
  · rw [capture_images]
    exact List.getLast?_append_cons _ _ _

/-- Witness for `c1_sentinel_once_last` in the stub environment with the
everywhere-defined stub scorer. -/
theorem c1_sentinel_once_last_witness :
    ((capture_images 0 stubEnv 7).count ChanAItem.finish = 1 ∧
     (capture_images 0 stubEnv 7).getLast? = some ChanAItem.finish) ∧
    (∀ items : List ChanAItem, ChanAItem.finish ∈ items →
       (computeLoop okScorer items).count ChanBItem.finish = 1 ∧
       (computeLoop okScorer items).getLast? = some ChanBItem.finish) ∧
    (∀ items : List ChanAItem, (computeLoop okScorer items).count ChanBItem.finish ≤ 1) :=
  c1_sentinel_once_last 0 stubEnv 6 7
    (by intro j hj; interval_cases j <;> norm_num [stubEnv])
    (by norm_num [stubEnv]) (by norm_num) okScorer

/-! ## Scoring and aggregation -/

/-- A record successfully built by `compute_metrics` keeps the frame's
original capture timestamp. -/
lemma computeRecord_time (sc : Scorer) (t : Time) (d : Image) (r : VideoMetrics)
    (h : computeRecord sc t d = some r) : r.time = t := by
  obtain ⟨ms, hms, rfl⟩ := Option.map_eq_some'.mp h
  rfl

/-- The keys of a successfully built metrics dict are exactly the
iterated metric kinds, in iteration order. -/
lemma dictComp_keys (score : Scorer) (data : Image) :
    ∀ (l : List MetricType) (ms : List (MetricType × ℚ)),
    dictComp score data l = some ms →
    ms.map Prod.fst = l := by
  intro l
  induction l with
  | nil =>
    intro ms h
    simp only [dictComp, Option.some.injEq] at h
    simp [← h]
  | cons mt l ih =>
    intro ms h
    cases hg : score data mt with
    | none => simp [dictComp, hg] at h
    | some v =>
      cases hrest : dictComp score data l with
      | none => simp [dictComp, hg, hrest] at h
      | some xs =>
        simp only [dictComp, hg, hrest, Option.some.injEq] at h
        subst h
        simp [ih xs hrest]

/-- `compute_metrics` applied to a run of frames it can score entirely:
the stage emits one record per frame, in order, and then behaves on the
remaining input as it would from scratch. -/
lemma computeLoop_ok_frames (sc : Scorer) :
    ∀ (fs : List (Time × Image)) (tail : List ChanAItem),
    (∀ p ∈ fs, (computeRecord sc p.1 p.2).isSome) →
    ∃ rs : List VideoMetrics,
      computeLoop sc (fs.map (fun p => ChanAItem.frame p.1 p.2) ++ tail)
        = rs.map ChanBItem.record ++ computeLoop sc tail ∧
      rs.map VideoMetrics.time = fs.map Prod.fst := by
  intro fs
  induction fs with
  | nil =>
    intro tail h
    exact ⟨[], by simp, by simp⟩
  | cons p fs ih =>
    intro tail h
    obtain ⟨r, hr⟩ := Option.isSome_iff_exists.mp (h p (List.mem_cons_self p fs))
    obtain ⟨rs, h1, h2⟩ := ih tail (fun q hq => h q (List.mem_cons_of_mem p hq))
    refine ⟨r :: rs, ?_, ?_⟩
    · simp [computeLoop, hr, h1]
    · simp [h2, computeRecord_time sc p.1 p.2 r hr]

/-- `graph_metrics` consumes a run of records by accumulating them in
order, then continues on the remaining pulls. -/
lemma graphLoop_records :
    ∀ (rs : List VideoMetrics) (rest : List PullB) (acc : GraphAcc),
    graphLoop ((rs.map ChanBItem.record).map PullB.item ++ rest) acc
      = graphLoop rest (rs.foldl pushRecord acc) := by
  intro rs
  induction rs with
  | nil =>
    intro rest acc
    simp
  | cons r rs ih =>
    intro rest acc
    simp only [List.map_cons, List.cons_append, graphLoop, List.foldl_cons]
    exact ih rest (pushRecord acc r)

/-- Accumulating records appends their timestamps in order. -/
lemma foldl_pushRecord_times :
    ∀ (rs : List VideoMetrics) (acc : GraphAcc),
    (rs.foldl pushRecord acc).times = acc.times ++ rs.map VideoMetrics.time := by
  intro rs
  induction rs with
  | nil =>
    intro acc
    simp
  | cons r rs ih =>
    intro acc
    simp [ih, pushRecord]

/-- C6: for every frame the scorer handles without error, the resulting
record keeps the frame's original capture timestamp unchanged and its
metrics dict has exactly one entry per metric kind — the keys are
exactly the enumerated `MetricType` members, each occurring once. -/
theorem c6_scorevector_complete (sc : Scorer) (t : Time) (d : Image) (r : VideoMetrics)
    (h : computeRecord sc t d = some r) :
    r.time = t ∧
    r.metrics.map Prod.fst = MetricType.all ∧
    ∀ mt : MetricType, (r.metrics.map Prod.fst).count mt = 1 := by
  obtain ⟨ms, hms, rfl⟩ := Option.map_eq_some'.mp h
  have hkeys : ms.map Prod.fst = MetricType.all :=
    dictComp_keys sc d MetricType.all ms hms
  refine ⟨rfl, hkeys, ?_⟩
  intro mt
  rw [show (VideoMetrics.mk t ms).metrics = ms from rfl, hkeys]
  cases mt <;> decide

/-- Witness for `c6_scorevector_complete` on a concrete scored frame. -/
theorem c6_scorevector_complete_witness :
    (VideoMetrics.mk 0 [(MetricType.sharpness, 1), (MetricType.noise, 2),
        (MetricType.contrast, 3)]).time = 0 ∧
    ((VideoMetrics.mk 0 [(MetricType.sharpness, 1), (MetricType.noise, 2),
        (MetricType.contrast, 3)]).metrics.map Prod.fst = MetricType.all) ∧
    ∀ mt : MetricType,
      ((VideoMetrics.mk 0 [(MetricType.sharpness, 1), (MetricType.noise, 2),
          (MetricType.contrast, 3)]).metrics.map Prod.fst).count mt = 1 :=
  c6_scorevector_complete okScorer 0 5
    (VideoMetrics.mk 0 [(MetricType.sharpness, 1), (MetricType.noise, 2),
      (MetricType.contrast, 3)])
    (by decide)

/-- C5: for any sequence of captured frames the scorer handles without
error, the timeline accumulated by `graph_metrics` lists the score
records in exactly capture emission order — its timestamps are the
frames' capture timestamps in order — and if capture timestamps are
non-decreasing, so is the timeline. -/
theorem c5_timeline_order (sc : Scorer) (fs : List (Time × Image))
    (hok : ∀ p ∈ fs, (computeRecord sc p.1 p.2).isSome)
    (hmono : List.Chain' (· ≤ ·) (fs.map Prod.fst)) :
    ∃ a : GraphAcc,
      graph_metrics ((computeLoop sc (chanAOf fs)).map PullB.item) = some a ∧
      a.times = fs.map Prod.fst ∧
      List.Chain' (· ≤ ·) a.times := by
  obtain ⟨rs, h1, h2⟩ := computeLoop_ok_frames sc fs [ChanAItem.finish] hok
  refine ⟨rs.foldl pushRecord GraphAcc.empty, ?_, ?_, ?_⟩
  · rw [graph_metrics, chanAOf, h1]
    rw [show computeLoop sc [ChanAItem.finish] = [ChanBItem.finish] from rfl,
      List.map_append, graphLoop_records]
    rfl
  · rw [foldl_pushRecord_times, h2]
    rfl
  · rw [foldl_pushRecord_times, h2]
    simpa using hmono

/-- Witness for `c5_timeline_order` on two concrete frames captured at
times 0 and 1. -/
theorem c5_timeline_order_witness :
    ∃ a : GraphAcc,
      graph_metrics ((computeLoop okScorer (chanAOf [(0, 0), (1, 1)])).map PullB.item) = some a ∧
      a.times = [(0, 0), (1, 1)].map Prod.fst ∧
      List.Chain' (· ≤ ·) a.times :=
  c5_timeline_order okScorer [(0, 0), (1, 1)] (by decide)
    (by norm_num [List.chain'_cons, List.chain'_singleton])

/-- C2 counterexample: when the scorer raises on frame #3 of the five
frames `c2Frames`, the run's final timeline holds 2 entries — the frames
scored before the failure — not the 4 entries the claim requires:
`compute_metrics` breaks out of its loop on `ValueError` instead of
skipping the one bad frame. -/
theorem c2_counterexample :
    ((graph_metrics ((computeLoop c2Scorer (chanAOf c2Frames)).map PullB.item)).map
        (fun a => a.times.length)) = some 2 ∧
    ((graph_metrics ((computeLoop c2Scorer (chanAOf c2Frames)).map PullB.item)).map
        (fun a => a.times.length)) ≠ some 4 := by
  constructor <;> decide

/-- C2 as amended: if scoring a frame raises `ValueError`,
`compute_metrics` drops that frame's record AND stops consuming — every
later frame is dropped too — then pushes the sentinel, so the
aggregation stage still terminates and renders; the final timeline holds
exactly the frames scored before the failure (2 entries when the scorer
raises on frame 3 of 5). -/
theorem c2_amended (sc : Scorer) (pre post : List (Time × Image)) (tb : Time) (ib : Image)
    (hok : ∀ p ∈ pre, (computeRecord sc p.1 p.2).isSome)
    (hfail : computeRecord sc tb ib = none) :
    ∃ a : GraphAcc,
      graph_metrics ((computeLoop sc (chanAOf (pre ++ (tb, ib) :: post))).map PullB.item)
        = some a ∧
      a.times.length = pre.length ∧
      a.times = pre.map Prod.fst := by
  obtain ⟨rs, h1, h2⟩ := computeLoop_ok_frames sc pre
    (((tb, ib) :: post).map (fun p => ChanAItem.frame p.1 p.2) ++ [ChanAItem.finish]) hok
  have hsplit : chanAOf (pre ++ (tb, ib) :: post)
      = pre.map (fun p => ChanAItem.frame p.1 p.2)
        ++ (((tb, ib) :: post).map (fun p => ChanAItem.frame p.1 p.2) ++ [ChanAItem.finish]) := by
    rw [chanAOf, List.map_append, List.append_assoc]
  have hbad : computeLoop sc
      (((tb, ib) :: post).map (fun p => ChanAItem.frame p.1 p.2) ++ [ChanAItem.finish])
      = [ChanBItem.finish] := by
    simp [computeLoop, hfail]
  refine ⟨rs.foldl pushRecord GraphAcc.empty, ?_, ?_, ?_⟩
  · rw [graph_metrics, hsplit, h1, hbad, List.map_append, graphLoop_records]
    rfl
  · rw [foldl_pushRecord_times]
    have := congrArg List.length h2
    simpa [GraphAcc.empty] using this
  · rw [foldl_pushRecord_times, h2]
    rfl

/-- Witness for `c2_amended`: the scorer fails on the third of five
frames; the timeline holds the two frames scored before it. -/
theorem c2_amended_witness :
    ∃ a : GraphAcc,
      graph_metrics ((computeLoop c2Scorer
          (chanAOf ([(0, 0), (1, 1)] ++ (2, 2) :: [(3, 3), (4, 4)]))).map PullB.item)
        = some a ∧
      a.times.length = [((0 : ℚ), (0 : ℕ)), (1, 1)].length ∧
      a.times = [((0 : ℚ), (0 : ℕ)), (1, 1)].map Prod.fst :=
  c2_amended c2Scorer [(0, 0), (1, 1)] [(3, 3), (4, 4)] 2 2 (by decide) (by decide)

/-- C10: if a pull from the result queue raises `ValueError` before the
sentinel has arrived, `graph_metrics` stops consuming but still reaches
the rendering code with the accumulator built so far — the failed pull
appends nothing, so the partial timeline is exactly the records received
before the error, in order. -/
theorem c10_partial_render (rs : List VideoMetrics) (rest : List PullB) :
    graph_metrics ((rs.map (fun r => PullB.item (ChanBItem.record r))) ++ PullB.raiseVE :: rest)
      = some (rs.foldl pushRecord GraphAcc.empty) ∧
    (rs.foldl pushRecord GraphAcc.empty).times = rs.map VideoMetrics.time := by
  constructor
  · rw [graph_metrics,
      show rs.map (fun r => PullB.item (ChanBItem.record r))
        = (rs.map ChanBItem.record).map PullB.item by rw [List.map_map]; rfl,
      graphLoop_records]
    rfl
  · rw [foldl_pushRecord_times]
    rfl

/-! ## Orchestration and schedule independence -/

/-- C7: `run_video_processes` constructs both queues first, starts
exactly the three stages with the wiring Capture→`packet_queue`→Scoring→
`metrics_queue`→Sink (queue arguments in positional order), and its last
three actions are the joins of all three stages — control returns to the
caller only after every stage has been joined. -/
theorem c7_orchestration :
    run_video_processes.take 2
      = [OrchAction.create QueueId.packet_queue, OrchAction.create QueueId.metrics_queue] ∧
    run_video_processes.filter (fun a => a.isStart)
      = [OrchAction.start Stage.capture [QueueId.packet_queue],
         OrchAction.start Stage.analysis [QueueId.packet_queue, QueueId.metrics_queue],
         OrchAction.start Stage.graph [QueueId.metrics_queue]] ∧
    run_video_processes.filter (fun a => a.isJoin)
      = [OrchAction.join Stage.capture, OrchAction.join Stage.analysis,
         OrchAction.join Stage.graph] ∧
    run_video_processes.drop 5
      = [OrchAction.join Stage.capture, OrchAction.join Stage.analysis,
         OrchAction.join Stage.graph] ∧
    run_video_processes.length = 8 := by
  refine ⟨rfl, rfl, rfl, rfl, rfl⟩

/-- One pipeline step, whichever stage acts and whether or not it is
blocked, never changes the run's eventual aggregation outcome. -/
lemma outcome_step (sc : Scorer) (st : Stage) (s : PipeState) :
    outcome sc ((stepStage sc s st).getD s) = outcome sc s := by
  cases st with
  | capture =>
    cases htp : s.toPush with
    | nil => simp [stepStage, htp]
    | cons a rest =>
      simp only [stepStage, htp, Option.getD_some]
      by_cases hg : s.graphDone
      · simp [outcome, hg]
      · by_cases ha : s.analysisDone
        · simp [outcome, hg, ha]
        · simp [outcome, hg, ha, htp, List.append_assoc]
  | analysis =>
    by_cases ha : s.analysisDone
    · simp [stepStage, ha]
    · cases hca : s.chanA with
      | nil => simp [stepStage, ha, hca]
      | cons it rest =>
        cases it with
        | finish =>
          simp only [stepStage, ha, hca, Bool.false_eq_true, if_false, Option.getD_some]
          by_cases hg : s.graphDone
          · simp [outcome, hg]
          · simp [outcome, hg, ha, hca, computeLoop]
        | frame t d =>
          cases hr : computeRecord sc t d with
          | some r =>
            simp only [stepStage, ha, hca, hr, Bool.false_eq_true, if_false, Option.getD_some]
            by_cases hg : s.graphDone
            · simp [outcome, hg]
            · simp [outcome, hg, ha, hca, computeLoop, hr, List.append_assoc]
          | none =>
            simp only [stepStage, ha, hca, hr, Bool.false_eq_true, if_false, Option.getD_some]
            by_cases hg : s.graphDone
            · simp [outcome, hg]
            · simp [outcome, hg, ha, hca, computeLoop, hr]
  | graph =>
    by_cases hg : s.graphDone
    · simp [stepStage, hg]
    · cases hcb : s.chanB with
      | nil => simp [stepStage, hg, hcb]
      | cons it rest =>
        cases it with
        | finish =>
          simp only [stepStage, hg, hcb, Bool.false_eq_true, if_false, Option.getD_some]
          simp [outcome, hg, hcb, graphLoop]
        | record r =>
          simp only [stepStage, hg, hcb, Bool.false_eq_true, if_false, Option.getD_some]
          simp [outcome, hg, hcb, graphLoop]

/-- The eventual aggregation outcome is invariant under any schedule. -/
lemma outcome_runSched (sc : Scorer) :
    ∀ (sched : List Stage) (s : PipeState),
    outcome sc (runSched sc sched s) = outcome sc s := by
  intro sched
  induction sched with
  | nil =>
    intro s
    rfl
  | cons st sched ih =>
    intro s
    rw [runSched, ih, outcome_step]

/-- C8: with a fixed (deterministic) scorer and a fixed sequence of
captured frames, any two pipeline executions that run to quiescence —
whatever interleaving of the three stages each follows — accumulate
identical timelines, and that timeline is exactly the sequential
composition of `compute_metrics` and `graph_metrics` over the captured
frames. -/
theorem c8_schedule_independent (sc : Scorer) (frames : List (Time × Image))
    (sch1 sch2 : List Stage)
    (h1 : (runSched sc sch1 (initState frames)).terminal)
    (h2 : (runSched sc sch2 (initState frames)).terminal) :
    (runSched sc sch1 (initState frames)).acc = (runSched sc sch2 (initState frames)).acc ∧
    some (runSched sc sch1 (initState frames)).acc
      = graph_metrics ((computeLoop sc (chanAOf frames)).map PullB.item) := by
  have key : ∀ sched : List Stage, (runSched sc sched (initState frames)).terminal →
      some (runSched sc sched (initState frames)).acc
        = graph_metrics ((computeLoop sc (chanAOf frames)).map PullB.item) := by
    intro sched ht
    obtain ⟨-, -, hg⟩ := ht
    have hterm : outcome sc (runSched sc sched (initState frames))
        = some (runSched sc sched (initState frames)).acc := by
      simp [outcome, hg]
    have hinit : outcome sc (initState frames)
        = graph_metrics ((computeLoop sc (chanAOf frames)).map PullB.item) := by
      simp [outcome, initState, graph_metrics]
    rw [← hterm, outcome_runSched, hinit]
  exact ⟨Option.some.inj ((key sch1 h1).trans (key sch2 h2).symm), key sch1 h1⟩

/-- Witness for `c8_schedule_independent`: one captured frame, the stub
scorer, and two different complete interleavings — a fully sequential
one and an eager pipelined one. -/
theorem c8_schedule_independent_witness :
    (runSched okScorer [Stage.capture, Stage.capture, Stage.analysis, Stage.analysis,
        Stage.graph, Stage.graph] (initState [(0, 0)])).acc
      = (runSched okScorer [Stage.capture, Stage.analysis, Stage.graph, Stage.capture,
          Stage.analysis, Stage.graph] (initState [(0, 0)])).acc ∧
    some (runSched okScorer [Stage.capture, Stage.capture, Stage.analysis, Stage.analysis,
        Stage.graph, Stage.graph] (initState [(0, 0)])).acc
      = graph_metrics ((computeLoop okScorer (chanAOf [(0, 0)])).map PullB.item) :=
  c8_schedule_independent okScorer [(0, 0)]
    [Stage.capture, Stage.capture, Stage.analysis, Stage.analysis, Stage.graph, Stage.graph]
    [Stage.capture, Stage.analysis, Stage.graph, Stage.capture, Stage.analysis, Stage.graph]
    (by decide) (by decide)
